import Mathlib

set_option maxRecDepth 40000

/-!
Verification of the bskt repository's bank-stablecoin PoR + ACE + CCIP
workflow (src/bank-stablecoin-por-ace-ccip-workflow/main.ts) and the
backend API-key middleware (src/backend/src/middleware/auth.ts).

The TypeScript is embedded shallowly: the HTTP handler becomes a pure
function of the parsed instruction together with an oracle environment
holding the results of the two on-chain report submissions and the
proof-of-reserve feed; JavaScript numbers are modeled as IEEE-754
binary64 values represented exactly as mantissa/exponent pairs, with
round-to-nearest-even arithmetic; `bigint` values become `Nat`;
thrown JS exceptions become `Except`/`Option` error values.
-/

namespace Bskt

/-! ## JavaScript string primitives -/

/-- Decides whether `pat` is a leading segment of `l` (character-exact,
    as JS `String.prototype.startsWith`). -/
def startsWithList : List Char → List Char → Bool
  | [], _ => true
  | _ :: _, [] => false
  | a :: as, b :: bs => a == b && startsWithList as bs

/-- Decides whether `pat` occurs contiguously inside `l`
    (JS `String.prototype.includes`). -/
def containsList (pat : List Char) : List Char → Bool
  | [] => pat.isEmpty
  | c :: cs => startsWithList pat (c :: cs) || containsList pat cs

/-- JS `s.includes(pat)`. -/
def jsIncludes (s pat : String) : Bool :=
  containsList pat.toList s.toList

/-! ## IEEE-754 binary64 arithmetic

JavaScript `number` arithmetic, as used by the workflow for amount and
reserve scaling, is modeled exactly: a (nonnegative, normal-range,
finite) double is represented as a pair `(m, e) : Nat × Int` denoting
the real value `m * 2 ^ e`.  `flOfRat n d` rounds the positive rational
`n / d` to the nearest binary64 value, ties to even mantissa, which is
the IEEE-754 `roundTiesToEven` behaviour JS mandates for parsing and
multiplication.  Exponent overflow and subnormals are outside the range
of every value arising in this development and are not modeled. -/

/-- Binary length of `n` (`0` for `0`), computed with structural fuel so
    that the kernel can evaluate it; the fuel bounds the magnitudes used
    here by a wide margin. -/
def bitLenAux : Nat → Nat → Nat
  | 0, _ => 0
  | fuel + 1, n => if n = 0 then 0 else bitLenAux fuel (n / 2) + 1

/-- Number of binary digits of `n`. -/
def bitLen (n : Nat) : Nat := bitLenAux 4096 n

/-- Rounds the rational `n / d` (with `d > 0`) to the nearest natural
    number, ties to even. -/
def rne (n d : Nat) : Nat :=
  let q := n / d
  let r := n % d
  if 2 * r < d then q
  else if d < 2 * r then q + 1
  else if q % 2 = 0 then q else q + 1

/-- Rounds the nonnegative rational `n / d` (with `d > 0`) to binary64:
    the result `(m, e)` denotes `m * 2 ^ e` and is the IEEE-754
    round-to-nearest-even double of `n / d`. -/
def flOfRat (n d : Nat) : Nat × Int :=
  if n = 0 then (0, 0)
  else
    let a := bitLen n - 1
    let b := bitLen d - 1
    let cond : Bool := if b ≤ a then decide (d * 2 ^ (a - b) ≤ n) else decide (d ≤ n * 2 ^ (b - a))
    let dexp : Int := if cond then (a : Int) - (b : Int) else (a : Int) - (b : Int) - 1
    let s : Int := 52 - dexp
    let m := if 0 ≤ s then rne (n * 2 ^ s.toNat) d else rne n (d * 2 ^ (-s).toNat)
    (m, dexp - 52)

/-- Binary64 multiplication of doubles `x` and `y`: the exact product,
    rounded to nearest-even. -/
def flMul (x y : Nat × Int) : Nat × Int :=
  let e := x.2 + y.2
  if 0 ≤ e then flOfRat (x.1 * y.1 * 2 ^ e.toNat) 1
  else flOfRat (x.1 * y.1) (2 ^ (-e).toNat)

/-- JS `BigInt(x)` for a nonnegative double `x`: exact when `x` is an
    integer, a thrown `RangeError` (here `none`) otherwise. -/
def jsBigInt (x : Nat × Int) : Option Nat :=
  if 0 ≤ x.2 then some (x.1 * 2 ^ x.2.toNat)
  else if x.1 % 2 ^ (-x.2).toNat = 0 then some (x.1 / 2 ^ (-x.2).toNat) else none

/-- JS `Math.floor(x)` for a nonnegative double `x`. -/
def flFloor (x : Nat × Int) : Nat :=
  if 0 ≤ x.2 then x.1 * 2 ^ x.2.toNat else x.1 / 2 ^ (-x.2).toNat

/-! ## Decimal amount strings -/

/-- Value of a decimal digit character, `none` for a non-digit. -/
def digitVal (c : Char) : Option Nat :=
  if 48 ≤ c.toNat ∧ c.toNat ≤ 57 then some (c.toNat - 48) else none

/-- Reads a digit sequence as a natural number, `none` on a non-digit. -/
def digitsVal : List Char → Nat → Option Nat
  | [], acc => some acc
  | c :: cs, acc =>
    match digitVal c with
    | some d => digitsVal cs (acc * 10 + d)
    | none => none

/-- Splits a character list at the first dot, if any. -/
def splitAtDot : List Char → List Char × Option (List Char)
  | [] => ([], none)
  | c :: cs =>
    if c = '.' then ([], some cs)
    else
      let r := splitAtDot cs
      (c :: r.1, r.2)

/-- Parses a plain decimal literal `I` or `I.F` (digits on both sides of
    the dot) into `(intPart, fracPart, fracDigits)`.  These are the forms
    the workflow's amount strings take; the further prefixes JS
    `parseFloat` tolerates (signs, exponents, trailing junk, a bare
    leading or trailing dot) are not modeled, and strings outside the
    grammar are treated as `NaN` (`none`). -/
def parseDecimal (s : String) : Option (Nat × Nat × Nat) :=
  let p := splitAtDot s.toList
  match p.2 with
  | none =>
    if p.1 = [] then none
    else (digitsVal p.1 0).map (fun i => (i, 0, 0))
  | some fracCs =>
    if p.1 = [] ∨ fracCs = [] then none
    else
      match digitsVal p.1 0, digitsVal fracCs 0 with
      | some i, some f => some (i, f, fracCs.length)
      | _, _ => none

/-- Embeds main.ts line 381,
    `BigInt(parseFloat(parsedPayload.amount) * (10 ** runtime.config.decimals))`:
    the decimal string is parsed to the nearest double, multiplied by the
    double value of `10 ^ decimals`, and converted to a bigint; `none`
    when `parseFloat` yields `NaN` or `BigInt` throws on a non-integral
    double. -/
def jsScaledAmount (amount : String) (decimals : Nat) : Option Nat :=
  match parseDecimal amount with
  | none => none
  | some (i, f, k) =>
    jsBigInt (flMul (flOfRat (i * 10 ^ k + f) (10 ^ k)) (flOfRat (10 ^ decimals) 1))

/-- Modelled from the spec: the exact fixed-point scaling of a decimal
    string by `decimals`, computed with integer arithmetic only — the
    scaling the specification requires for on-wire amounts.  `none` when
    the string is not a decimal literal or the scaled value is not an
    integer. -/
def exactScaledAmount (amount : String) (decimals : Nat) : Option Nat :=
  match parseDecimal amount with
  | none => none
  | some (i, f, k) =>
    let n := i * 10 ^ k + f
    if n * 10 ^ decimals % 10 ^ k = 0 then some (n * 10 ^ decimals / 10 ^ k) else none

/-! ## Byte-level utilities of main.ts -/

/-- UTF-8 encoding of one character, as `Buffer.from(str)` produces
    byte-wise.  (JS strings are UTF-16; for the basic multilingual plane,
    which is all `Char` shares with it below `0x10000`, the code-unit and
    code-point views coincide.) -/
def utf8Bytes (c : Char) : List Nat :=
  let n := c.toNat
  if n < 128 then [n]
  else if n < 2048 then [192 + n / 64, 128 + n % 64]
  else if n < 65536 then [224 + n / 4096, 128 + n / 64 % 64, 128 + n % 64]
  else [240 + n / 262144, 128 + n / 4096 % 64, 128 + n / 64 % 64, 128 + n % 64]

/-- Embeds stringToBytes32 (main.ts lines 81-84):
    `str.padEnd(32, '\0').slice(0, 32)` on UTF-16 code units, then the
    UTF-8 bytes of the result (`Buffer.from(bytes32)`), rendered as hex
    downstream.  Returned here as the byte list. -/
def stringToBytes32 (s : String) : List Nat :=
  ((s.toList ++ List.replicate (32 - s.toList.length) (Char.ofNat 0)).take 32).map utf8Bytes |>.flatten

/-- Lower-case hex digit for `n < 16`. -/
def hexDigitChar (n : Nat) : Char :=
  if n < 10 then Char.ofNat (48 + n) else Char.ofNat (87 + n)

/-- Embeds the SDK's bytesToHex: `0x` followed by two lower-case hex
    digits per byte. -/
def bytesToHex (bs : List Nat) : String :=
  "0x" ++ String.mk ((bs.map (fun b => [hexDigitChar (b / 16), hexDigitChar (b % 16)])).flatten)

/-- Hex digit character test (both cases). -/
def isHexDigitChar (c : Char) : Bool :=
  (48 ≤ c.toNat && c.toNat ≤ 57) || (97 ≤ c.toNat && c.toNat ≤ 102) || (65 ≤ c.toNat && c.toNat ≤ 70)

/-- Embeds viem's getAddress as used on lines 176-177 and 278-279: the
    input must match `0x` followed by 40 hex digits, otherwise an
    InvalidAddressError is thrown (`none`).  The EIP-55 checksum
    re-casing getAddress performs needs keccak256 and is not modeled:
    the address is returned as given, and addresses are compared as
    given throughout this development. -/
def getAddress (s : String) : Option String :=
  match s.toList with
  | '0' :: 'x' :: rest =>
    if rest.length = 40 && rest.all isHexDigitChar then some s else none
  | _ => none

/-! ## Workflow data model -/

/-- Instruction type tag for mint reports (main.ts line 62). -/
def INSTRUCTION_MINT : Nat := 1

/-- Sepolia section of the workflow config (config schema lines 20-25). -/
structure SepoliaConfig where
  stablecoinAddress : String
  mintingConsumerAddress : String
  ccipConsumerAddress : String
  chainSelector : String
deriving DecidableEq

/-- Fuji section of the workflow config (config schema lines 26-29). -/
structure FujiConfig where
  stablecoinAddress : String
  chainSelector : String
deriving DecidableEq

/-- Workflow config (config schema lines 19-32).  `decimals` is
    `z.number()`; the deployments use a nonnegative integer count and it
    is modeled as `Nat`. -/
structure Config where
  sepolia : SepoliaConfig
  fuji : FujiConfig
  porApiUrl : String
  decimals : Nat
deriving DecidableEq

/-- Beneficiary object of the payload schema (lines 42-45). -/
structure BeneficiaryInfo where
  account : String
  name : Option String
deriving DecidableEq

/-- Optional crossChain object of the payload schema (lines 50-54). -/
structure CrossChain where
  enabled : Bool
  destinationChain : String
  beneficiary : String
deriving DecidableEq

/-- A schema-valid MT103 instruction (payload schema lines 39-55). -/
structure Payload where
  messageType : String
  transactionId : String
  beneficiary : BeneficiaryInfo
  amount : String
  currency : String
  valueDate : Option String
  bankReference : String
  crossChain : Option CrossChain
deriving DecidableEq

/-- Result of one `evmClient.writeReport(...).result()` call.  The SDK's
    TxStatus enum is modeled as a string whose success value is
    `SUCCESS`; no SDK status value contains the rejection signal texts.
    `errorMessage` is the empty string when absent (both are falsy in
    the JS the workflow runs).  `txHash` is the returned hash bytes,
    `none` when the field is absent. -/
structure WriteResult where
  txStatus : String
  errorMessage : String
  txHash : Option (List Nat)
deriving DecidableEq

/-- Oracle environment of one run: the proof-of-reserve feed value
    (`totalReserve` is the JSON number, an IEEE-754 double as
    mantissa/exponent) and the write results the chain returns to the
    mint and CCIP submissions. -/
structure Env where
  totalReserve : Nat × Int
  lastUpdated : String
  mintResp : WriteResult
  ccipResp : WriteResult
deriving DecidableEq

/-- The raw HTTP payload as the handler's parsing stack classifies it:
    an empty body (line 351), a body `JSON.parse` rejects (line 359), a
    JSON body the zod payloadSchema rejects (line 360), or a
    schema-valid instruction. -/
inductive Input where
  | empty : Input
  | notJson (raw : String) : Input
  | badSchema (raw : String) : Input
  | valid (p : Payload) : Input
deriving DecidableEq

/-- Fields of the ABI-encoded mint report (main.ts lines 194-197):
    `(uint8 instructionType, address beneficiary, uint256 amount,
    bytes32 bankRef)`. -/
structure MintReport where
  instructionType : Nat
  beneficiary : String
  amount : Nat
  bankRef : List Nat
deriving DecidableEq

/-- Fields of the ABI-encoded CCIP report (main.ts lines 288-291):
    `(uint64 destinationChainSelector, address sender,
    address beneficiary, uint256 amount, bytes32 bankRef)`. -/
structure TransferReport where
  destinationChainSelector : Nat
  sender : String
  beneficiary : String
  amount : Nat
  bankRef : List Nat
deriving DecidableEq

/-- JS `BigInt(s)` on a string, as used on the chain selector:
    digit strings (and the empty string, which is `0n`) are modeled; the
    other accepted forms do not occur here.  `none` is a thrown
    SyntaxError. -/
def jsBigIntOfString (s : String) : Option Nat :=
  if s = "" then some 0 else digitsVal s.toList 0

/-- The known policy-rejection signals (main.ts lines 237, 245, 328):
    the message contains `PolicyRunRejected` or `blacklisted`. -/
def hasSignal (s : String) : Bool :=
  jsIncludes s "PolicyRunRejected" || jsIncludes s "blacklisted"

/-- `resp.errorMessage || txStatus` (main.ts lines 234, 325): the error
    message when nonempty, the status value otherwise. -/
def errorMsgOf (resp : WriteResult) : String :=
  if resp.errorMessage = "" then resp.txStatus else resp.errorMessage

/-- All-zero 32-byte hash substituted when a successful write returns no
    hash (main.ts lines 249, 335: `resp.txHash || new Uint8Array(32)`). -/
def zeroHash32 : List Nat := List.replicate 32 0

/-- Its hex rendering, the stage reference actually reported. -/
def zeroHashHex : String := bytesToHex zeroHash32

/-! ## Mint stage (main.ts lines 164-256) -/

/-- Embeds mintWithACE.  Returns the encoded mint report when submission
    was reached (`none` when getAddress threw before encoding) and the
    stage result: `ok` with the hex transaction reference, or `error`
    with the thrown message.  Logging and DON report signing are not
    modeled; the signed payload carries exactly the encoded fields. -/
def mintWithACE (beneficiary mintRecipient : String) (amount : Nat) (bankRef : String)
    (resp : WriteResult) : Option MintReport × Except String String :=
  match getAddress beneficiary with
  | none => (none, Except.error ("Address " ++ beneficiary ++ " is invalid."))
  | some _ =>
    match getAddress mintRecipient with
    | none => (none, Except.error ("Address " ++ mintRecipient ++ " is invalid."))
    | some checksummedMintRecipient =>
      let bankRefHex := stringToBytes32 bankRef
      let report : MintReport := ⟨INSTRUCTION_MINT, checksummedMintRecipient, amount, bankRefHex⟩
      if resp.txStatus ≠ "SUCCESS" then
        let errorMsg := errorMsgOf resp
        if hasSignal errorMsg then
          (some report, Except.error ("[ACE REJECTED] Address " ++ beneficiary ++ " is blacklisted"))
        else
          (some report, Except.error ("Failed to mint: " ++ errorMsg))
      else if resp.errorMessage ≠ "" ∧ hasSignal resp.errorMessage then
        (some report, Except.error ("[ACE REJECTED] Address " ++ beneficiary ++ " is blacklisted"))
      else
        (some report, Except.ok (bytesToHex (resp.txHash.getD zeroHash32)))

/-! ## CCIP transfer stage (main.ts lines 266-342) -/

/-- Embeds transferWithACE.  Returns the encoded CCIP report when
    submission was reached and the stage result.  Unlike the mint stage,
    there is no success-with-error-message recheck after the status
    test. -/
def transferWithACE (cfg : Config) (sender beneficiary : String) (amount : Nat)
    (bankRef : String) (resp : WriteResult) : Option TransferReport × Except String String :=
  match getAddress sender with
  | none => (none, Except.error ("Address " ++ sender ++ " is invalid."))
  | some checksummedSender =>
    match getAddress beneficiary with
    | none => (none, Except.error ("Address " ++ beneficiary ++ " is invalid."))
    | some checksummedBeneficiary =>
      match jsBigIntOfString cfg.fuji.chainSelector with
      | none => (none, Except.error ("Cannot convert " ++ cfg.fuji.chainSelector ++ " to a BigInt"))
      | some destChainSelector =>
        let bankRefHex := stringToBytes32 bankRef
        let report : TransferReport :=
          ⟨destChainSelector, checksummedSender, checksummedBeneficiary, amount, bankRefHex⟩
        if resp.txStatus ≠ "SUCCESS" then
          let errorMsg := errorMsgOf resp
          if hasSignal errorMsg then
            (some report,
              Except.error ("[ACE REJECTED] Beneficiary " ++ beneficiary ++ " is blacklisted"))
          else
            (some report, Except.error ("Failed to initiate CCIP transfer: " ++ errorMsg))
        else
          (some report, Except.ok (bytesToHex (resp.txHash.getD zeroHash32)))

/-! ## Proof-of-reserve validation (main.ts lines 93-152) -/

/-- Scaled reserve value as validateProofOfReserve computes it (line
    134): `BigInt(Math.floor(totalReserve * (10 ** config.decimals)))`
    in double arithmetic, with the hardcoded mock value `500000` when
    the PoR URL is a `file://` URL (lines 104-110). -/
def reservesWeiOf (cfg : Config) (env : Env) : Nat :=
  let totalReserve :=
    if startsWithList "file://".toList cfg.porApiUrl.toList then ((500000, 0) : Nat × Int)
    else env.totalReserve
  flFloor (flMul totalReserve (flOfRat (10 ^ cfg.decimals) 1))

/-- Embeds validateProofOfReserve: throws (lines 144-148) exactly when
    `reservesWei < mintAmount`, returns normally otherwise.  The thrown
    message interpolates the numeric values; the interpolation is
    abbreviated here and nothing downstream inspects it. -/
def validateProofOfReserve (cfg : Config) (env : Env) (mintAmount : Nat) : Except String Unit :=
  if reservesWeiOf cfg env < mintAmount then
    Except.error "[PoR FAILED] Insufficient reserves"
  else
    Except.ok ()

/-! ## HTTP trigger handler (main.ts lines 347-519) -/

/-- The structured error object the handler returns from its catch
    blocks (lines 396-401, 433-439, 467-474): always `success: false`,
    with the optional fields only some branches set. -/
structure ErrorResult where
  success : Bool
  error : String
  message : String
  beneficiary : Option String
  mintTransaction : Option String
  transactionId : String
deriving DecidableEq

/-- The success result object (lines 487-506).  The three CCIP fields
    are added only when a CCIP transfer executed. -/
structure CompletedResult where
  reportDelivered : Bool
  transactionId : String
  beneficiary : String
  amount : String
  currency : String
  mintTransaction : String
  message : String
  etherscanMint : String
  verificationNote : String
  ccipTransaction : Option String
  etherscanCCIP : Option String
  ccipExplorer : Option String
deriving DecidableEq

/-- What one invocation of the handler produces at its boundary: a
    thrown (uncaught or rethrown) error, a structured error object, or
    the completed result (which line 513 returns JSON-stringified; the
    serialization is not modeled). -/
inductive Outcome where
  | thrown (message : String) : Outcome
  | errorResult (e : ErrorResult) : Outcome
  | completed (r : CompletedResult) : Outcome
deriving DecidableEq

/-- Which stages ran: whether the PoR check was reached, and the reports
    actually submitted to the mint and CCIP consumers (`none` when the
    stage was never invoked or threw before submitting). -/
structure Trace where
  porChecked : Bool
  mintReport : Option MintReport
  transferReport : Option TransferReport
deriving DecidableEq

/-- Trace of a run that reached no stage. -/
def emptyTrace : Trace := ⟨false, none, none⟩

/-- `parsedPayload.crossChain?.enabled === true` (line 383). -/
def crossChainEnabled (p : Payload) : Bool :=
  match p.crossChain with
  | some cc => cc.enabled
  | none => false

/-- Builds the completed result object (lines 487-506).  The CCIP
    fields are added under the JS truthiness test on `ccipTxHash`. -/
def buildCompleted (p : Payload) (mintTxHash : String) (ccipTxHash : Option String) :
    CompletedResult :=
  let plainMsg := "Report delivered: Mint " ++ p.amount ++ " " ++ p.currency ++ " to "
    ++ p.beneficiary.account ++ " (verify on-chain)"
  { reportDelivered := true
    transactionId := p.transactionId
    beneficiary := p.beneficiary.account
    amount := p.amount
    currency := p.currency
    mintTransaction := mintTxHash
    message :=
      match p.crossChain with
      | some cc =>
        if cc.enabled then
          "Reports delivered: Mint + CCIP transfer to " ++ cc.destinationChain
            ++ " (verify on-chain)"
        else plainMsg
      | none => plainMsg
    etherscanMint := "https://sepolia.etherscan.io/tx/" ++ mintTxHash
    verificationNote := "ACE policies may block execution. Verify balance and events on-chain."
    ccipTransaction :=
      match ccipTxHash with
      | some h => if h ≠ "" then some h else none
      | none => none
    etherscanCCIP :=
      match ccipTxHash with
      | some h => if h ≠ "" then some ("https://sepolia.etherscan.io/tx/" ++ h) else none
      | none => none
    ccipExplorer :=
      match ccipTxHash with
      | some h => if h ≠ "" then some "https://ccip.chain.link" else none
      | none => none }

/-- STEP 3 of the handler (lines 445-513): the optional CCIP transfer
    followed by the report-delivery response, given the mint stage's
    recipient, reference and submitted report. -/
def step3CrossChain (cfg : Config) (env : Env) (p : Payload) (amountWei : Nat)
    (mintRecipient mintTxHash : String) (mrep : Option MintReport) : Outcome × Trace :=
  match p.crossChain with
  | some cc =>
    if cc.enabled then
      match transferWithACE cfg mintRecipient cc.beneficiary amountWei
          p.bankReference env.ccipResp with
      | (trep, Except.error msg) =>
        (Outcome.errorResult ⟨false,
          if jsIncludes msg "ACE REJECTED" then "ACE_POLICY_REJECTED_CCIP"
          else "CCIP_FAILED",
          msg, some cc.beneficiary, some mintTxHash, p.transactionId⟩,
          ⟨true, mrep, trep⟩)
      | (trep, Except.ok ccipTxHash) =>
        (Outcome.completed (buildCompleted p mintTxHash (some ccipTxHash)),
          ⟨true, mrep, trep⟩)
    else
      (Outcome.completed (buildCompleted p mintTxHash none), ⟨true, mrep, none⟩)
  | none =>
    (Outcome.completed (buildCompleted p mintTxHash none), ⟨true, mrep, none⟩)

/-- STEP 2 of the handler (lines 404-440): the ACE mint and its catch
    block, then STEP 3. -/
def step2Mint (cfg : Config) (env : Env) (p : Payload) (amountWei : Nat) : Outcome × Trace :=
  let beneficiary := p.beneficiary.account
  let mintRecipient :=
    if crossChainEnabled p then cfg.sepolia.ccipConsumerAddress else beneficiary
  match mintWithACE beneficiary mintRecipient amountWei p.bankReference env.mintResp with
  | (mrep, Except.error msg) =>
    (Outcome.errorResult ⟨false,
      if jsIncludes msg "ACE REJECTED" then "ACE_POLICY_REJECTED" else "MINT_FAILED",
      msg, some beneficiary, none, p.transactionId⟩, ⟨true, mrep, none⟩)
  | (mrep, Except.ok mintTxHash) =>
    step3CrossChain cfg env p amountWei mintRecipient mintTxHash mrep

/-- Embeds the onHTTPTrigger handler over the input classification and
    the oracle environment, returning the boundary outcome and the stage
    trace.  The outer catch (lines 515-518) logs and rethrows, so every
    error raised outside the three structured catch blocks surfaces as a
    thrown outcome; the exact JS error texts of parse failures are
    abbreviated.  getNetwork for Sepolia (lines 368-376) is assumed to
    succeed. -/
def onHTTPTrigger (cfg : Config) (env : Env) (input : Input) : Outcome × Trace :=
  match input with
  | Input.empty => (Outcome.thrown "HTTP trigger payload is required", emptyTrace)
  | Input.notJson _ => (Outcome.thrown "JSON.parse: unexpected token", emptyTrace)
  | Input.badSchema _ => (Outcome.thrown "ZodError: invalid payload", emptyTrace)
  | Input.valid p =>
    match jsScaledAmount p.amount cfg.decimals with
    | none => (Outcome.thrown "Cannot convert to a BigInt", emptyTrace)
    | some amountWei =>
      match validateProofOfReserve cfg env amountWei with
      | Except.error msg =>
        (Outcome.errorResult ⟨false, "POR_INSUFFICIENT_RESERVES", msg, none, none,
          p.transactionId⟩, ⟨true, none, none⟩)
      | Except.ok _ =>
        step2Mint cfg env p amountWei

/-! ## API-key middleware (src/backend/src/middleware/auth.ts) -/

/-- What the middleware does with a request: respond itself with a
    status and error code, or call the downstream handler. -/
inductive AuthAction where
  | respond (status : Nat) (error : String) : AuthAction
  | callNext : AuthAction
deriving DecidableEq

/-- Embeds apiKeyAuth (auth.ts lines 7-41).  `apiKeyEnv` is
    `process.env.API_KEY`, `none` when unset; `provided` is
    `req.headers[x-api-key]`, `none` when the header is absent (Express
    yields the empty string for a header sent with an empty value).  JS
    truthiness makes unset and empty values take the same falsy
    branches.  Repeated headers, which Express surfaces as arrays, are
    not modeled. -/
def apiKeyAuth (apiKeyEnv provided : Option String) : AuthAction :=
  match apiKeyEnv with
  | none => AuthAction.respond 500 "AUTH_NOT_CONFIGURED"
  | some key =>
    if key = "" then AuthAction.respond 500 "AUTH_NOT_CONFIGURED"
    else
      match provided with
      | none => AuthAction.respond 401 "MISSING_API_KEY"
      | some pk =>
        if pk = "" then AuthAction.respond 401 "MISSING_API_KEY"
        else if pk ≠ key then AuthAction.respond 403 "INVALID_API_KEY"
        else AuthAction.callNext

/-! ## Concrete fixtures used by witnesses and counterexamples -/

/-- A valid end-user beneficiary address. -/
def addrA : String := "0xaaaaaaaaaaaaaaaaaaaaaaaaaaaaaaaaaaaaaaaa"

/-- A valid CCIP consumer (custody) address, distinct from `addrA`. -/
def addrB : String := "0xbbbbbbbbbbbbbbbbbbbbbbbbbbbbbbbbbbbbbbbb"

/-- A valid minting consumer address. -/
def addrC : String := "0xcccccccccccccccccccccccccccccccccccccccc"

/-- A valid stablecoin address. -/
def addrD : String := "0xdddddddddddddddddddddddddddddddddddddddd"

/-- A valid destination-chain beneficiary address. -/
def addrE : String := "0xeeeeeeeeeeeeeeeeeeeeeeeeeeeeeeeeeeeeeeee"

/-- Concrete workflow config: a non-mock PoR URL and 0 decimals (the
    scaling behaviour at other decimal counts is exercised separately). -/
def cfgA : Config := ⟨⟨addrD, addrC, addrB, "1111"⟩, ⟨addrD, "2222"⟩, "https://por.example", 0⟩

/-- Concrete instruction without cross-chain transfer. -/
def pA : Payload := ⟨"MT103", "TX-1", ⟨addrA, none⟩, "5", "USD", none, "REF-1", none⟩

/-- Concrete instruction with cross-chain transfer enabled. -/
def pCC : Payload := ⟨"MT103", "TX-1", ⟨addrA, none⟩, "5", "USD", none, "REF-1",
  some ⟨true, "fuji", addrE⟩⟩

/-- Successful mint write result with hash bytes 0x11…11. -/
def respOkM : WriteResult := ⟨"SUCCESS", "", some (List.replicate 32 17)⟩

/-- Successful CCIP write result with hash bytes 0x22…22. -/
def respOkC : WriteResult := ⟨"SUCCESS", "", some (List.replicate 32 34)⟩

/-- Environment where reserves cover the mint and both writes succeed. -/
def envOk : Env := ⟨(1000000, 0), "2025-10-29T00:00:00Z", respOkM, respOkC⟩

/-- Same environment with reserves of 1 (below the mint amount 5). -/
def envLow : Env := ⟨(1, 0), "2025-10-29T00:00:00Z", respOkM, respOkC⟩

/-- Environment where the mint succeeds but the CCIP write fails with a
    plain revert (no policy signal). -/
def envTF : Env := ⟨(1000000, 0), "2025-10-29T00:00:00Z", respOkM,
  ⟨"TX_REVERTED", "execution reverted", some (List.replicate 32 34)⟩⟩

/-- Environment where the mint write fails and its transport message
    happens to contain the literal text ACE REJECTED without either
    policy-rejection signal. -/
def envAce : Env := ⟨(1000000, 0), "2025-10-29T00:00:00Z",
  ⟨"TX_FAILED", "execution reverted: ACE REJECTED by admin", none⟩, respOkC⟩

/-- Environment where the mint write fails with a genuine policy
    rejection signal in its message. -/
def envSig : Env := ⟨(1000000, 0), "2025-10-29T00:00:00Z",
  ⟨"TX_FAILED", "PolicyRunRejected: beneficiary blocked", none⟩, respOkC⟩

/-- Environment where both writes succeed but neither returns a
    transaction hash. -/
def envZero : Env := ⟨(1000000, 0), "2025-10-29T00:00:00Z",
  ⟨"SUCCESS", "", none⟩, ⟨"SUCCESS", "", none⟩⟩

/-! ## Stage-level reduction lemmas -/

/-- Reduction of mintWithACE on a successful write with no rejection
    signal: the report carries the mint recipient and the stage returns
    the (possibly zero-substituted) hash. -/
theorem mintWithACE_ok {b mr ba mra : String} {amt : Nat} {br : String} {resp : WriteResult}
    (hb : getAddress b = some ba) (hmr : getAddress mr = some mra)
    (hst : resp.txStatus = "SUCCESS") (hsig : hasSignal resp.errorMessage = false) :
    mintWithACE b mr amt br resp =
      (some ⟨INSTRUCTION_MINT, mra, amt, stringToBytes32 br⟩,
        Except.ok (bytesToHex (resp.txHash.getD zeroHash32))) := by
  unfold mintWithACE
  rw [hb, hmr]
  simp [hst, hsig]

/-- Reduction of mintWithACE on a failed write: the report was
    submitted, and the stage throws the signal-dependent message. -/
theorem mintWithACE_fail {b mr ba mra : String} {amt : Nat} {br : String} {resp : WriteResult}
    (hb : getAddress b = some ba) (hmr : getAddress mr = some mra)
    (hst : resp.txStatus ≠ "SUCCESS") :
    mintWithACE b mr amt br resp =
      (some ⟨INSTRUCTION_MINT, mra, amt, stringToBytes32 br⟩,
        Except.error (if hasSignal (errorMsgOf resp) then
          "[ACE REJECTED] Address " ++ b ++ " is blacklisted"
        else "Failed to mint: " ++ errorMsgOf resp)) := by
  unfold mintWithACE
  rw [hb, hmr]
  by_cases h : hasSignal (errorMsgOf resp) <;> simp [hst, h]

/-- Reduction of mintWithACE on a successful write whose error message
    carries a rejection signal (main.ts line 245). -/
theorem mintWithACE_late_reject {b mr ba mra : String} {amt : Nat} {br : String}
    {resp : WriteResult}
    (hb : getAddress b = some ba) (hmr : getAddress mr = some mra)
    (hst : resp.txStatus = "SUCCESS") (hem : resp.errorMessage ≠ "")
    (hsig : hasSignal resp.errorMessage = true) :
    mintWithACE b mr amt br resp =
      (some ⟨INSTRUCTION_MINT, mra, amt, stringToBytes32 br⟩,
        Except.error ("[ACE REJECTED] Address " ++ b ++ " is blacklisted")) := by
  unfold mintWithACE
  rw [hb, hmr]
  simp [hst, hem, hsig]

/-- Reduction of transferWithACE on a successful write. -/
theorem transferWithACE_ok {cfg : Config} {s b sa ba : String} {amt : Nat} {br : String}
    {sel : Nat} {resp : WriteResult}
    (hs : getAddress s = some sa) (hb : getAddress b = some ba)
    (hsel : jsBigIntOfString cfg.fuji.chainSelector = some sel)
    (hst : resp.txStatus = "SUCCESS") :
    transferWithACE cfg s b amt br resp =
      (some ⟨sel, sa, ba, amt, stringToBytes32 br⟩,
        Except.ok (bytesToHex (resp.txHash.getD zeroHash32))) := by
  unfold transferWithACE
  rw [hs, hb, hsel]
  simp [hst]

/-- Reduction of transferWithACE on a failed write. -/
theorem transferWithACE_fail {cfg : Config} {s b sa ba : String} {amt : Nat} {br : String}
    {sel : Nat} {resp : WriteResult}
    (hs : getAddress s = some sa) (hb : getAddress b = some ba)
    (hsel : jsBigIntOfString cfg.fuji.chainSelector = some sel)
    (hst : resp.txStatus ≠ "SUCCESS") :
    transferWithACE cfg s b amt br resp =
      (some ⟨sel, sa, ba, amt, stringToBytes32 br⟩,
        Except.error (if hasSignal (errorMsgOf resp) then
          "[ACE REJECTED] Beneficiary " ++ b ++ " is blacklisted"
        else "Failed to initiate CCIP transfer: " ++ errorMsgOf resp)) := by
  unfold transferWithACE
  rw [hs, hb, hsel]
  by_cases h : hasSignal (errorMsgOf resp) <;> simp [hst, h]

/-- A run whose amount scales and whose reserves cover it reaches the
    mint stage. -/
theorem run_reaches_mint {cfg : Config} {env : Env} {p : Payload} {a : Nat}
    (hamt : jsScaledAmount p.amount cfg.decimals = some a)
    (hpor : ¬ reservesWeiOf cfg env < a) :
    onHTTPTrigger cfg env (Input.valid p) = step2Mint cfg env p a := by
  simp [onHTTPTrigger, hamt, validateProofOfReserve, hpor]

/-- getAddress returns its argument unchanged when it succeeds (the
    EIP-55 re-casing is modeled as the identity). -/
theorem getAddress_eq {s t : String} (h : getAddress s = some t) : t = s := by
  unfold getAddress at h
  split at h
  · split at h
    · injection h with h
      exact h.symm
    · exact absurd h (by simp)
  · exact absurd h (by simp)

/-- A message with no rejection signal has, in particular, a signal-free
    empty form: `hasSignal` of the empty string is false. -/
theorem hasSignal_empty : hasSignal "" = false := by decide

/-- A mint submission that was reached splits into the three reduction
    lemmas; this restates the case split used by the inversion lemmas
    below. -/
theorem mintWithACE_cases {b mr ba mra : String} {amt : Nat} {br : String}
    {resp : WriteResult} (hb : getAddress b = some ba) (hmr : getAddress mr = some mra) :
    (mintWithACE b mr amt br resp).1 =
      some ⟨INSTRUCTION_MINT, mra, amt, stringToBytes32 br⟩ := by
  by_cases hst : resp.txStatus = "SUCCESS"
  · by_cases hsg : hasSignal resp.errorMessage = true
    · by_cases hem : resp.errorMessage = ""
      · rw [hem, hasSignal_empty] at hsg
        exact absurd hsg (by simp)
      · rw [mintWithACE_late_reject hb hmr hst hem hsg]
    · have hsg' : hasSignal resp.errorMessage = false := by
        revert hsg
        cases hasSignal resp.errorMessage <;> simp
      rw [mintWithACE_ok hb hmr hst hsg']
  · rw [mintWithACE_fail hb hmr hst]

/-- Every mint report actually submitted carries the mint recipient in
    its beneficiary field. -/
theorem mintWithACE_report {b mr : String} {amt : Nat} {br : String} {resp : WriteResult}
    {rep : MintReport} (h : (mintWithACE b mr amt br resp).1 = some rep) :
    rep.beneficiary = mr := by
  cases hb : getAddress b with
  | none =>
    unfold mintWithACE at h
    rw [hb] at h
    exact absurd h (by simp)
  | some ba =>
    cases hmr : getAddress mr with
    | none =>
      unfold mintWithACE at h
      rw [hb, hmr] at h
      exact absurd h (by simp)
    | some mra =>
      rw [mintWithACE_cases hb hmr] at h
      injection h with h
      rw [← h]
      exact getAddress_eq hmr

/-- Every CCIP report actually submitted carries the destination
    beneficiary argument in its beneficiary field. -/
theorem transferWithACE_report {cfg : Config} {s b : String} {amt : Nat} {br : String}
    {resp : WriteResult} {t : TransferReport}
    (h : (transferWithACE cfg s b amt br resp).1 = some t) :
    t.beneficiary = b := by
  cases hs : getAddress s with
  | none =>
    unfold transferWithACE at h
    rw [hs] at h
    exact absurd h (by simp)
  | some sa =>
    cases hb : getAddress b with
    | none =>
      unfold transferWithACE at h
      rw [hs, hb] at h
      exact absurd h (by simp)
    | some ba =>
      cases hsel : jsBigIntOfString cfg.fuji.chainSelector with
      | none =>
        unfold transferWithACE at h
        rw [hs, hb, hsel] at h
        exact absurd h (by simp)
      | some sel =>
        by_cases hst : resp.txStatus = "SUCCESS"
        · rw [transferWithACE_ok hs hb hsel hst] at h
          injection h with h
          rw [← h]
          exact getAddress_eq hb
        · rw [transferWithACE_fail hs hb hsel hst] at h
          injection h with h
          rw [← h]
          exact getAddress_eq hb

/-- The reference a successful mint stage returns is the hex rendering
    of the write's hash, with the all-zero hash substituted when the
    write returned none. -/
theorem mintWithACE_hash {b mr : String} {amt : Nat} {br : String} {resp : WriteResult}
    {h : String} (hok : (mintWithACE b mr amt br resp).2 = Except.ok h) :
    h = bytesToHex (resp.txHash.getD zeroHash32) := by
  cases hb : getAddress b with
  | none =>
    unfold mintWithACE at hok
    rw [hb] at hok
    exact absurd hok (by simp)
  | some ba =>
    cases hmr : getAddress mr with
    | none =>
      unfold mintWithACE at hok
      rw [hb, hmr] at hok
      exact absurd hok (by simp)
    | some mra =>
      by_cases hst : resp.txStatus = "SUCCESS"
      · by_cases hsg : hasSignal resp.errorMessage = true
        · by_cases hem : resp.errorMessage = ""
          · rw [hem, hasSignal_empty] at hsg
            exact absurd hsg (by simp)
          · rw [mintWithACE_late_reject hb hmr hst hem hsg] at hok
            exact absurd hok (by simp)
        · have hsg' : hasSignal resp.errorMessage = false := by
            revert hsg
            cases hasSignal resp.errorMessage <;> simp
          rw [mintWithACE_ok hb hmr hst hsg'] at hok
          injection hok with hok
          exact hok.symm
      · rw [mintWithACE_fail hb hmr hst] at hok
        exact absurd hok (by simp)

/-- The mint report recorded in the trace after STEP 3 is the one the
    mint stage submitted, whatever the transfer stage does. -/
theorem step3_mintReport (cfg : Config) (env : Env) (p : Payload) (a : Nat)
    (mr h : String) (mrep : Option MintReport) :
    (step3CrossChain cfg env p a mr h mrep).2.mintReport = mrep := by
  unfold step3CrossChain
  cases p.crossChain with
  | none => rfl
  | some cc =>
    by_cases hen : cc.enabled
    · rcases ht : transferWithACE cfg mr cc.beneficiary a p.bankReference env.ccipResp
        with ⟨trep, tres⟩
      cases tres <;> simp [hen, ht]
    · simp [hen]

/-- With cross-chain disabled or absent, STEP 3 goes straight to the
    completed result built from the mint data alone. -/
theorem step3_no_crosschain {p : Payload} {cfg : Config} {env : Env} {a : Nat}
    {mr h0 : String} {mrep : Option MintReport} (h : crossChainEnabled p = false) :
    step3CrossChain cfg env p a mr h0 mrep =
      (Outcome.completed (buildCompleted p h0 none), ⟨true, mrep, none⟩) := by
  unfold step3CrossChain
  cases hpc : p.crossChain with
  | none => rfl
  | some cc =>
    have hen : cc.enabled = false := by
      unfold crossChainEnabled at h
      rw [hpc] at h
      exact h
    simp [hen]

/-- An occurrence of `pat` at the head survives extending the list. -/
theorem startsWithList_append {pat l1 : List Char} (l2 : List Char)
    (h : startsWithList pat l1 = true) : startsWithList pat (l1 ++ l2) = true := by
  induction pat generalizing l1 with
  | nil => rfl
  | cons a as ih =>
    cases l1 with
    | nil => exact absurd h (by simp [startsWithList])
    | cons b bs =>
      unfold startsWithList at h ⊢
      rcases Bool.and_eq_true_iff.mp h with ⟨h1, h2⟩
      exact Bool.and_eq_true_iff.mpr ⟨h1, ih h2⟩

/-- An occurrence of `pat` inside `l1` survives extending the list. -/
theorem containsList_append_left {pat l1 : List Char} (l2 : List Char)
    (h : containsList pat l1 = true) : containsList pat (l1 ++ l2) = true := by
  induction l1 with
  | nil =>
    unfold containsList at h
    cases l2 with
    | nil => exact h
    | cons c cs =>
      unfold containsList
      refine Bool.or_eq_true_iff.mpr (Or.inl ?_)
      have : pat = [] := by
        cases pat with
        | nil => rfl
        | cons a as => exact absurd h (by simp [List.isEmpty])
      rw [this]
      rfl
  | cons c cs ih =>
    unfold containsList at h
    rcases Bool.or_eq_true_iff.mp h with h1 | h2
    · unfold containsList
      exact Bool.or_eq_true_iff.mpr (Or.inl (startsWithList_append l2 h1))
    · unfold containsList
      exact Bool.or_eq_true_iff.mpr (Or.inr (ih h2))

/-- A substring found in `s` is found in `s ++ t`. -/
theorem jsIncludes_of_left {s pat : String} (t : String)
    (h : jsIncludes s pat = true) : jsIncludes (s ++ t) pat = true := by
  unfold jsIncludes at h ⊢
  have : (s ++ t).toList = s.toList ++ t.toList := by
    show (s ++ t).data = s.data ++ t.data
    exact String.data_append s t
  rw [this]
  exact containsList_append_left t.toList h

/-- The mint report recorded in the trace of a run that reached the
    mint stage is exactly the one mintWithACE submitted. -/
theorem step2_mintReport (cfg : Config) (env : Env) (p : Payload) (a : Nat) :
    (step2Mint cfg env p a).2.mintReport =
      (mintWithACE p.beneficiary.account
        (if crossChainEnabled p then cfg.sepolia.ccipConsumerAddress
         else p.beneficiary.account) a p.bankReference env.mintResp).1 := by
  unfold step2Mint
  rcases hm : mintWithACE p.beneficiary.account
      (if crossChainEnabled p then cfg.sepolia.ccipConsumerAddress
       else p.beneficiary.account) a p.bankReference env.mintResp with ⟨mrep, res⟩
  cases res with
  | error msg => simp [hm]
  | ok h => simp [hm, step3_mintReport]

/-- Every transfer report STEP 3 records names the enabled crossChain
    block's beneficiary. -/
theorem step3_transferReport_beneficiary {cfg : Config} {env : Env} {p : Payload} {a : Nat}
    {mr h0 : String} {mrep : Option MintReport} {t : TransferReport}
    (h : (step3CrossChain cfg env p a mr h0 mrep).2.transferReport = some t) :
    ∃ cc, p.crossChain = some cc ∧ t.beneficiary = cc.beneficiary := by
  unfold step3CrossChain at h
  cases hpc : p.crossChain with
  | none =>
    rw [hpc] at h
    exact absurd h (by simp)
  | some cc =>
    rw [hpc] at h
    dsimp only at h
    by_cases hen : cc.enabled
    · rcases ht : transferWithACE cfg mr cc.beneficiary a p.bankReference env.ccipResp
        with ⟨trep, tres⟩
      rw [ht] at h
      cases tres with
      | error msg =>
        simp [hen] at h
        have h1 : (transferWithACE cfg mr cc.beneficiary a p.bankReference env.ccipResp).1 =
            some t := by
          rw [ht]
          exact h
        exact ⟨cc, rfl, transferWithACE_report h1⟩
      | ok chash =>
        simp [hen] at h
        have h1 : (transferWithACE cfg mr cc.beneficiary a p.bankReference env.ccipResp).1 =
            some t := by
          rw [ht]
          exact h
        exact ⟨cc, rfl, transferWithACE_report h1⟩
    · simp [hen] at h

/-- Every transfer report recorded in the trace names the enabled
    crossChain block's beneficiary. -/
theorem step2_transferReport_beneficiary {cfg : Config} {env : Env} {p : Payload} {a : Nat}
    {t : TransferReport}
    (h : (step2Mint cfg env p a).2.transferReport = some t) :
    ∃ cc, p.crossChain = some cc ∧ t.beneficiary = cc.beneficiary := by
  simp only [step2Mint] at h
  rcases hm : mintWithACE p.beneficiary.account
      (if crossChainEnabled p then cfg.sepolia.ccipConsumerAddress
       else p.beneficiary.account) a p.bankReference env.mintResp with ⟨mrep, res⟩
  rw [hm] at h
  cases res with
  | error msg => simp at h
  | ok hsh =>
    simp only [] at h
    exact step3_transferReport_beneficiary h

/-! ## Claim theorems -/

/-- C1: for every instruction whose scaled reserve value is strictly
    below the scaled mint amount, the workflow returns the
    reserve-rejected outcome — success false, error
    POR_INSUFFICIENT_RESERVES, carrying the instruction's transactionId
    — and neither the mint stage nor the transfer stage submits a
    report. -/
theorem c1_reserve_rejected (cfg : Config) (env : Env) (p : Payload) (a : Nat)
    (hamt : jsScaledAmount p.amount cfg.decimals = some a)
    (hlt : reservesWeiOf cfg env < a) :
    onHTTPTrigger cfg env (Input.valid p) =
      (Outcome.errorResult ⟨false, "POR_INSUFFICIENT_RESERVES",
        "[PoR FAILED] Insufficient reserves", none, none, p.transactionId⟩,
       ⟨true, none, none⟩) := by
  simp [onHTTPTrigger, hamt, validateProofOfReserve, hlt]

/-- C1 witness: the amount string "5" at 0 decimals against reserves of
    1 is rejected with no stage invoked. -/
theorem c1_reserve_rejected_witness :
    jsScaledAmount pA.amount cfgA.decimals = some 5 ∧
    reservesWeiOf cfgA envLow < 5 ∧
    onHTTPTrigger cfgA envLow (Input.valid pA) =
      (Outcome.errorResult ⟨false, "POR_INSUFFICIENT_RESERVES",
        "[PoR FAILED] Insufficient reserves", none, none, pA.transactionId⟩,
       ⟨true, none, none⟩) :=
  ⟨by decide, by decide, c1_reserve_rejected cfgA envLow pA 5 (by decide) (by decide)⟩

/-- C4 fails on the code: the on-wire amount is computed with
    floating-point arithmetic, and for the decimal string "1.1" at 18
    configured decimals the workflow scales to 1100000000000000128 wei,
    while exact fixed-point scaling gives 1100000000000000000 wei. -/
theorem c4_scaling_uses_floating_point :
    jsScaledAmount "1.1" 18 = some 1100000000000000128 ∧
    exactScaledAmount "1.1" 18 = some 1100000000000000000 ∧
    jsScaledAmount "1.1" 18 ≠ exactScaledAmount "1.1" 18 := by
  refine ⟨by decide, by decide, by decide⟩

/-- C5 fails as stated: a non-JSON body does not produce a structured
    validation-error outcome — the handler rethrows, so the fault
    propagates past the orchestrator boundary (though indeed no stage is
    attempted). -/
theorem c5_counterexample :
    onHTTPTrigger cfgA envOk (Input.notJson "this is not json") =
      (Outcome.thrown "JSON.parse: unexpected token", emptyTrace) ∧
    ∀ e, (onHTTPTrigger cfgA envOk (Input.notJson "this is not json")).1 ≠
      Outcome.errorResult e := by
  refine ⟨rfl, ?_⟩
  intro e h
  simp [onHTTPTrigger] at h

/-- C5 amended: malformed input (empty body, non-JSON body, or JSON
    failing the instruction schema) causes no stage to be attempted, but
    the entry point rethrows the parse or validation error rather than
    returning a structured outcome: the fault does propagate past the
    orchestrator boundary. -/
theorem c5_malformed_input_rethrown (cfg : Config) (env : Env) :
    onHTTPTrigger cfg env Input.empty =
      (Outcome.thrown "HTTP trigger payload is required", emptyTrace) ∧
    (∀ raw, onHTTPTrigger cfg env (Input.notJson raw) =
      (Outcome.thrown "JSON.parse: unexpected token", emptyTrace)) ∧
    (∀ raw, onHTTPTrigger cfg env (Input.badSchema raw) =
      (Outcome.thrown "ZodError: invalid payload", emptyTrace)) :=
  ⟨rfl, fun _ => rfl, fun _ => rfl⟩

/-- C8 fails on the code: padding and truncation act on UTF-16 code
    units while the byte encoding is UTF-8, so the bankReference "é"
    encodes to 33 bytes, not the 32 the bytes32 field requires. -/
theorem c8_bytes32_width_broken :
    (stringToBytes32 "é").length = 33 ∧ (stringToBytes32 "é").length ≠ 32 ∧
    (stringToBytes32 "REF-1").length = 32 := by
  refine ⟨by decide, by decide, by decide⟩

/-- C10 fails as stated: with the key configured and the x-api-key
    header present but empty, the middleware responds 401
    (MISSING_API_KEY), not the 403 the claim assigns to every
    present-but-mismatching header. -/
theorem c10_empty_header_counterexample :
    apiKeyAuth (some "secret-key") (some "") = AuthAction.respond 401 "MISSING_API_KEY" ∧
    apiKeyAuth (some "secret-key") (some "") ≠ AuthAction.respond 403 "INVALID_API_KEY" := by
  refine ⟨by decide, by decide⟩

/-- C10 amended: the middleware calls the downstream handler exactly
    when the key is configured nonempty and the header equals it; it
    responds 500 when the key is unset or empty, 401 when the header is
    absent or empty, and 403 when a nonempty header differs from the
    key. -/
theorem c10_apiKeyAuth_characterization (a h : Option String) :
    (apiKeyAuth a h = AuthAction.callNext ↔ ∃ k, a = some k ∧ k ≠ "" ∧ h = some k) ∧
    (apiKeyAuth a h = AuthAction.respond 500 "AUTH_NOT_CONFIGURED" ↔
      a = none ∨ a = some "") ∧
    (apiKeyAuth a h = AuthAction.respond 401 "MISSING_API_KEY" ↔
      (∃ k, a = some k ∧ k ≠ "") ∧ (h = none ∨ h = some "")) ∧
    (apiKeyAuth a h = AuthAction.respond 403 "INVALID_API_KEY" ↔
      (∃ k, a = some k ∧ k ≠ "") ∧ ∃ pk, h = some pk ∧ pk ≠ "" ∧ h ≠ a) := by
  rcases a with _ | k
  · rcases h with _ | pk <;> simp [apiKeyAuth]
  · rcases h with _ | pk
    · by_cases hk : k = "" <;> simp [apiKeyAuth, hk]
    · by_cases hk : k = "" <;> by_cases hp : pk = "" <;> by_cases hpk : pk = k <;>
        simp [apiKeyAuth, hk, hp, hpk] <;> tauto

/-- C2 fails as stated: in a cross-chain run, the beneficiary field of
    the encoded mint report is the custody identity (the CCIP consumer
    address), not the instruction's beneficiaryAccount. -/
theorem c2_counterexample :
    (onHTTPTrigger cfgA envOk (Input.valid pCC)).2.mintReport.map MintReport.beneficiary =
      some cfgA.sepolia.ccipConsumerAddress ∧
    pCC.crossChain.map CrossChain.enabled = some true ∧
    (onHTTPTrigger cfgA envOk (Input.valid pCC)).2.mintReport.map MintReport.beneficiary ≠
      some pCC.beneficiary.account := by
  refine ⟨by decide, by decide, by decide⟩

/-- C2 amended: the beneficiary field of every submitted mint report
    equals the mint recipient — the custody (CCIP consumer) address when
    cross-chain is enabled, the beneficiaryAccount otherwise — while the
    beneficiary field of every submitted transfer report equals
    crossChain.beneficiary. -/
theorem c2_mint_report_carries_recipient (cfg : Config) (env : Env) (p : Payload) (a : Nat)
    (hamt : jsScaledAmount p.amount cfg.decimals = some a)
    (hpor : ¬ reservesWeiOf cfg env < a) :
    (∀ rep, (onHTTPTrigger cfg env (Input.valid p)).2.mintReport = some rep →
      rep.beneficiary =
        (if crossChainEnabled p then cfg.sepolia.ccipConsumerAddress
         else p.beneficiary.account)) ∧
    (∀ t, (onHTTPTrigger cfg env (Input.valid p)).2.transferReport = some t →
      ∃ cc, p.crossChain = some cc ∧ t.beneficiary = cc.beneficiary) := by
  rw [run_reaches_mint hamt hpor]
  constructor
  · intro rep hrep
    rw [step2_mintReport] at hrep
    exact mintWithACE_report hrep
  · intro t ht
    exact step2_transferReport_beneficiary ht

/-- C3: when the mint succeeds and the CCIP transfer fails (or is
    policy-rejected), the terminal outcome still carries the mint
    reference in mintTransaction, and it equals the reference the
    Completed outcome carries when the same instruction runs with a
    succeeding transfer; the mint is never undone. -/
theorem c3_mint_reference_survives_transfer_failure (cfg : Config) (env : Env) (p : Payload)
    (cc : CrossChain) (a : Nat) (ba mra da : String) (sel : Nat)
    (hcc : p.crossChain = some cc) (hen : cc.enabled = true)
    (hamt : jsScaledAmount p.amount cfg.decimals = some a)
    (hpor : ¬ reservesWeiOf cfg env < a)
    (hb : getAddress p.beneficiary.account = some ba)
    (hrec : getAddress cfg.sepolia.ccipConsumerAddress = some mra)
    (hdb : getAddress cc.beneficiary = some da)
    (hsel : jsBigIntOfString cfg.fuji.chainSelector = some sel)
    (hmst : env.mintResp.txStatus = "SUCCESS")
    (hmsig : hasSignal env.mintResp.errorMessage = false)
    (htf : env.ccipResp.txStatus ≠ "SUCCESS") :
    (∃ e, (onHTTPTrigger cfg env (Input.valid p)).1 = Outcome.errorResult e ∧
       e.mintTransaction = some (bytesToHex (env.mintResp.txHash.getD zeroHash32))) ∧
    (∀ resp', resp'.txStatus = "SUCCESS" →
      ∃ r, (onHTTPTrigger cfg ⟨env.totalReserve, env.lastUpdated, env.mintResp, resp'⟩
          (Input.valid p)).1 = Outcome.completed r ∧
        r.mintTransaction = bytesToHex (env.mintResp.txHash.getD zeroHash32)) := by
  have hcce : crossChainEnabled p = true := by simp [crossChainEnabled, hcc, hen]
  constructor
  · rw [run_reaches_mint hamt hpor]
    simp only [step2Mint, hcce, if_true]
    rw [mintWithACE_ok hb hrec hmst hmsig]
    simp only [step3CrossChain, hcc, hen, eq_self_iff_true, if_true]
    rw [transferWithACE_fail hrec hdb hsel htf]
    exact ⟨_, rfl, rfl⟩
  · intro resp' hst
    have hpor' : ¬ reservesWeiOf cfg
        (⟨env.totalReserve, env.lastUpdated, env.mintResp, resp'⟩ : Env) < a := hpor
    rw [run_reaches_mint hamt hpor']
    simp only [step2Mint, hcce, if_true]
    rw [mintWithACE_ok hb hrec hmst hmsig]
    simp only [step3CrossChain, hcc, hen, eq_self_iff_true, if_true]
    rw [transferWithACE_ok hrec hdb hsel hst]
    exact ⟨_, rfl, rfl⟩

/-- C3 witness: the transfer-failing and transfer-succeeding runs of the
    concrete cross-chain instruction share the mint reference. -/
theorem c3_mint_reference_witness :
    (∃ e, (onHTTPTrigger cfgA envTF (Input.valid pCC)).1 = Outcome.errorResult e ∧
       e.mintTransaction = some (bytesToHex (envTF.mintResp.txHash.getD zeroHash32))) ∧
    (∀ resp', resp'.txStatus = "SUCCESS" →
      ∃ r, (onHTTPTrigger cfgA ⟨envTF.totalReserve, envTF.lastUpdated, envTF.mintResp, resp'⟩
          (Input.valid pCC)).1 = Outcome.completed r ∧
        r.mintTransaction = bytesToHex (envTF.mintResp.txHash.getD zeroHash32)) :=
  c3_mint_reference_survives_transfer_failure cfgA envTF pCC ⟨true, "fuji", addrE⟩ 5
    addrA addrB addrE 2222 (by decide) (by decide) (by decide) (by decide) (by decide)
    (by decide) (by decide) (by decide) (by decide) (by decide) (by decide)

/-- C6 fails as stated in one corner: a transport failure whose message
    happens to contain the literal text ACE REJECTED (without either
    rejection signal) is classified as ACE_POLICY_REJECTED, not the
    MINT_FAILED the claim assigns to every non-success result without a
    rejection signal. -/
theorem c6_counterexample :
    hasSignal (errorMsgOf envAce.mintResp) = false ∧
    envAce.mintResp.txStatus ≠ "SUCCESS" ∧
    (onHTTPTrigger cfgA envAce (Input.valid pA)).1 =
      Outcome.errorResult ⟨false, "ACE_POLICY_REJECTED",
        "Failed to mint: execution reverted: ACE REJECTED by admin",
        some addrA, none, "TX-1"⟩ ∧
    ∀ e, (onHTTPTrigger cfgA envAce (Input.valid pA)).1 = Outcome.errorResult e →
      e.error ≠ "MINT_FAILED" := by
  refine ⟨by decide, by decide, by decide, ?_⟩
  intro e h
  rw [show (onHTTPTrigger cfgA envAce (Input.valid pA)).1 =
      Outcome.errorResult ⟨false, "ACE_POLICY_REJECTED",
        "Failed to mint: execution reverted: ACE REJECTED by admin",
        some addrA, none, "TX-1"⟩ from by decide] at h
  injection h with h
  rw [← h]
  decide

/-- C6 amended: a submission result with a non-success status whose
    message carries a rejection signal, or a success status with an
    error message carrying one, yields the policy-rejected outcome
    (ACE_POLICY_REJECTED, identifying the instruction's beneficiary); a
    non-success result without a signal — and whose wrapped message does
    not itself contain the text ACE REJECTED — yields MINT_FAILED; a
    success status without a signal yields the transaction reference and
    the workflow proceeds to STEP 3. -/
theorem c6_mint_classification (cfg : Config) (env : Env) (p : Payload) (a : Nat)
    (ba mra : String)
    (hamt : jsScaledAmount p.amount cfg.decimals = some a)
    (hpor : ¬ reservesWeiOf cfg env < a)
    (hb : getAddress p.beneficiary.account = some ba)
    (hrec : getAddress (if crossChainEnabled p then cfg.sepolia.ccipConsumerAddress
      else p.beneficiary.account) = some mra) :
    (env.mintResp.txStatus ≠ "SUCCESS" → hasSignal (errorMsgOf env.mintResp) = true →
      onHTTPTrigger cfg env (Input.valid p) =
        (Outcome.errorResult ⟨false, "ACE_POLICY_REJECTED",
          "[ACE REJECTED] Address " ++ p.beneficiary.account ++ " is blacklisted",
          some p.beneficiary.account, none, p.transactionId⟩,
         ⟨true, some ⟨INSTRUCTION_MINT, mra, a, stringToBytes32 p.bankReference⟩, none⟩)) ∧
    (env.mintResp.txStatus ≠ "SUCCESS" → hasSignal (errorMsgOf env.mintResp) = false →
      jsIncludes ("Failed to mint: " ++ errorMsgOf env.mintResp) "ACE REJECTED" = false →
      onHTTPTrigger cfg env (Input.valid p) =
        (Outcome.errorResult ⟨false, "MINT_FAILED",
          "Failed to mint: " ++ errorMsgOf env.mintResp,
          some p.beneficiary.account, none, p.transactionId⟩,
         ⟨true, some ⟨INSTRUCTION_MINT, mra, a, stringToBytes32 p.bankReference⟩, none⟩)) ∧
    (env.mintResp.txStatus = "SUCCESS" → env.mintResp.errorMessage ≠ "" →
      hasSignal env.mintResp.errorMessage = true →
      onHTTPTrigger cfg env (Input.valid p) =
        (Outcome.errorResult ⟨false, "ACE_POLICY_REJECTED",
          "[ACE REJECTED] Address " ++ p.beneficiary.account ++ " is blacklisted",
          some p.beneficiary.account, none, p.transactionId⟩,
         ⟨true, some ⟨INSTRUCTION_MINT, mra, a, stringToBytes32 p.bankReference⟩, none⟩)) ∧
    (env.mintResp.txStatus = "SUCCESS" → hasSignal env.mintResp.errorMessage = false →
      (mintWithACE p.beneficiary.account
          (if crossChainEnabled p then cfg.sepolia.ccipConsumerAddress
           else p.beneficiary.account) a p.bankReference env.mintResp).2 =
        Except.ok (bytesToHex (env.mintResp.txHash.getD zeroHash32)) ∧
      onHTTPTrigger cfg env (Input.valid p) =
        step3CrossChain cfg env p a
          (if crossChainEnabled p then cfg.sepolia.ccipConsumerAddress
           else p.beneficiary.account)
          (bytesToHex (env.mintResp.txHash.getD zeroHash32))
          (some ⟨INSTRUCTION_MINT, mra, a, stringToBytes32 p.bankReference⟩)) := by
  have hace : jsIncludes ("[ACE REJECTED] Address " ++ p.beneficiary.account
      ++ " is blacklisted") "ACE REJECTED" = true :=
    jsIncludes_of_left " is blacklisted"
      (jsIncludes_of_left p.beneficiary.account (by decide))
  refine ⟨?_, ?_, ?_, ?_⟩
  · intro hst hsg
    rw [run_reaches_mint hamt hpor]
    simp only [step2Mint]
    rw [mintWithACE_fail hb hrec hst]
    simp [hsg, hace]
  · intro hst hsg hntext
    rw [run_reaches_mint hamt hpor]
    simp only [step2Mint]
    rw [mintWithACE_fail hb hrec hst]
    simp [hsg, hntext]
  · intro hst hem hsg
    rw [run_reaches_mint hamt hpor]
    simp only [step2Mint]
    rw [mintWithACE_late_reject hb hrec hst hem hsg]
    simp [hace]
  · intro hst hsg
    refine ⟨by rw [mintWithACE_ok hb hrec hst hsg], ?_⟩
    rw [run_reaches_mint hamt hpor]
    simp only [step2Mint]
    rw [mintWithACE_ok hb hrec hst hsg]

/-- C6 witness: a failed write whose message carries the
    PolicyRunRejected signal terminates the concrete instruction with
    ACE_POLICY_REJECTED. -/
theorem c6_mint_classification_witness :
    onHTTPTrigger cfgA envSig (Input.valid pA) =
      (Outcome.errorResult ⟨false, "ACE_POLICY_REJECTED",
        "[ACE REJECTED] Address " ++ addrA ++ " is blacklisted",
        some addrA, none, "TX-1"⟩,
       ⟨true, some ⟨INSTRUCTION_MINT, addrA, 5, stringToBytes32 "REF-1"⟩, none⟩) :=
  (c6_mint_classification cfgA envSig pA 5 addrA addrA (by decide) (by decide)
    (by decide) (by decide)).1 (by decide) (by decide)

/-- C7: with crossChain disabled or absent, the transfer stage never
    submits a report, and every completed outcome is built from the mint
    result alone: it carries no CCIP fields and its mint reference is
    the mint stage's. -/
theorem c7_no_crosschain_no_transfer_fields (cfg : Config) (env : Env) (p : Payload)
    (hcc : crossChainEnabled p = false) :
    (onHTTPTrigger cfg env (Input.valid p)).2.transferReport = none ∧
    (∀ r, (onHTTPTrigger cfg env (Input.valid p)).1 = Outcome.completed r →
      r.ccipTransaction = none ∧ r.etherscanCCIP = none ∧ r.ccipExplorer = none ∧
      r.mintTransaction = bytesToHex (env.mintResp.txHash.getD zeroHash32)) := by
  rcases hs : jsScaledAmount p.amount cfg.decimals with _ | a
  · refine ⟨by simp [onHTTPTrigger, hs, emptyTrace], ?_⟩
    intro r hr
    simp [onHTTPTrigger, hs] at hr
  · cases hv : validateProofOfReserve cfg env a with
    | error msg =>
      refine ⟨by simp [onHTTPTrigger, hs, hv], ?_⟩
      intro r hr
      simp [onHTTPTrigger, hs, hv] at hr
    | ok u =>
      have hred : onHTTPTrigger cfg env (Input.valid p) = step2Mint cfg env p a := by
        simp [onHTTPTrigger, hs, hv]
      rw [hred]
      simp only [step2Mint]
      rcases hm : mintWithACE p.beneficiary.account
          (if crossChainEnabled p then cfg.sepolia.ccipConsumerAddress
           else p.beneficiary.account) a p.bankReference env.mintResp with ⟨mrep, res⟩
      cases res with
      | error msg =>
        refine ⟨rfl, ?_⟩
        intro r hr
        exact absurd hr (by simp)
      | ok h =>
        dsimp only
        rw [step3_no_crosschain hcc]
        refine ⟨rfl, ?_⟩
        intro r hr
        injection hr with hr
        rw [← hr]
        refine ⟨rfl, rfl, rfl, ?_⟩
        have hh : (mintWithACE p.beneficiary.account
            (if crossChainEnabled p then cfg.sepolia.ccipConsumerAddress
             else p.beneficiary.account) a p.bankReference env.mintResp).2 =
            Except.ok h := by rw [hm]
        show h = bytesToHex (env.mintResp.txHash.getD zeroHash32)
        exact mintWithACE_hash hh

/-- C7 witness: the concrete no-crosschain instruction completes with a
    CCIP-free outcome carrying the mint hash. -/
theorem c7_no_crosschain_witness :
    (onHTTPTrigger cfgA envOk (Input.valid pA)).2.transferReport = none ∧
    (∀ r, (onHTTPTrigger cfgA envOk (Input.valid pA)).1 = Outcome.completed r →
      r.ccipTransaction = none ∧ r.etherscanCCIP = none ∧ r.ccipExplorer = none ∧
      r.mintTransaction = bytesToHex (envOk.mintResp.txHash.getD zeroHash32)) :=
  c7_no_crosschain_no_transfer_fields cfgA envOk pA (by decide)

/-- C9: when a write succeeds without returning a hash, the stage
    substitutes the all-zero 32-byte hash: the stage behaves identically
    to one that genuinely returned 0x00…00 (in both the mint and the
    transfer stage), and the completed outcome reports
    reportDelivered=true with the zero hash as its mint (and, cross
    chain, CCIP) reference. -/
theorem c9_zero_hash_substitution :
    (∀ (resp : WriteResult) (b mr : String) (amt : Nat) (br : String), resp.txHash = none →
      mintWithACE b mr amt br resp =
        mintWithACE b mr amt br ⟨resp.txStatus, resp.errorMessage, some zeroHash32⟩) ∧
    (∀ (cfg : Config) (resp : WriteResult) (s b : String) (amt : Nat) (br : String),
      resp.txHash = none →
      transferWithACE cfg s b amt br resp =
        transferWithACE cfg s b amt br ⟨resp.txStatus, resp.errorMessage, some zeroHash32⟩) ∧
    (∀ (cfg : Config) (env : Env) (p : Payload) (a : Nat) (ba mra : String),
      jsScaledAmount p.amount cfg.decimals = some a →
      ¬ reservesWeiOf cfg env < a →
      getAddress p.beneficiary.account = some ba →
      getAddress (if crossChainEnabled p then cfg.sepolia.ccipConsumerAddress
        else p.beneficiary.account) = some mra →
      env.mintResp.txStatus = "SUCCESS" → hasSignal env.mintResp.errorMessage = false →
      env.mintResp.txHash = none → crossChainEnabled p = false →
      (onHTTPTrigger cfg env (Input.valid p)).1 =
        Outcome.completed (buildCompleted p zeroHashHex none) ∧
      (buildCompleted p zeroHashHex none).reportDelivered = true ∧
      (buildCompleted p zeroHashHex none).mintTransaction = zeroHashHex) ∧
    (∀ (cfg : Config) (env : Env) (p : Payload) (cc : CrossChain) (a : Nat)
      (ba mra da : String) (sel : Nat),
      p.crossChain = some cc → cc.enabled = true →
      jsScaledAmount p.amount cfg.decimals = some a → ¬ reservesWeiOf cfg env < a →
      getAddress p.beneficiary.account = some ba →
      getAddress cfg.sepolia.ccipConsumerAddress = some mra →
      getAddress cc.beneficiary = some da →
      jsBigIntOfString cfg.fuji.chainSelector = some sel →
      env.mintResp.txStatus = "SUCCESS" → hasSignal env.mintResp.errorMessage = false →
      env.mintResp.txHash = none →
      env.ccipResp.txStatus = "SUCCESS" → env.ccipResp.txHash = none →
      (onHTTPTrigger cfg env (Input.valid p)).1 =
        Outcome.completed (buildCompleted p zeroHashHex (some zeroHashHex)) ∧
      (buildCompleted p zeroHashHex (some zeroHashHex)).ccipTransaction =
        some zeroHashHex) := by
  refine ⟨?_, ?_, ?_, ?_⟩
  · intro resp b mr amt br h
    rcases resp with ⟨st, em, th⟩
    cases h
    rfl
  · intro cfg resp s b amt br h
    rcases resp with ⟨st, em, th⟩
    cases h
    rfl
  · intro cfg env p a ba mra hamt hpor hb hrec hst hsg hnone hcc
    refine ⟨?_, rfl, rfl⟩
    rw [run_reaches_mint hamt hpor]
    simp only [step2Mint]
    rw [mintWithACE_ok hb hrec hst hsg]
    dsimp only
    rw [step3_no_crosschain hcc, hnone]
    rfl
  · intro cfg env p cc a ba mra da sel hccp hen hamt hpor hb hrec hdb hsel hst hsg
      hnone hcst hcnone
    have hcce : crossChainEnabled p = true := by simp [crossChainEnabled, hccp, hen]
    refine ⟨?_, rfl⟩
    rw [run_reaches_mint hamt hpor]
    simp only [step2Mint, hcce, if_true]
    rw [mintWithACE_ok hb hrec hst hsg]
    simp only [step3CrossChain, hccp, hen, eq_self_iff_true, if_true]
    rw [transferWithACE_ok hrec hdb hsel hcst]
    rw [hnone, hcnone]
    rfl

/-- C9 witness: the concrete cross-chain instruction with hashless
    successful writes completes with the zero hash as both references. -/
theorem c9_zero_hash_witness :
    (onHTTPTrigger cfgA envZero (Input.valid pCC)).1 =
      Outcome.completed (buildCompleted pCC zeroHashHex (some zeroHashHex)) ∧
    (buildCompleted pCC zeroHashHex (some zeroHashHex)).ccipTransaction =
      some zeroHashHex :=
  c9_zero_hash_substitution.2.2.2 cfgA envZero pCC ⟨true, "fuji", addrE⟩ 5 addrA addrB
    addrE 2222 (by decide) (by decide) (by decide) (by decide) (by decide) (by decide)
    (by decide) (by decide) (by decide) (by decide) (by decide) (by decide) (by decide)

/-- C2 witness: the amended identity routing evaluated on the concrete
    cross-chain instruction. -/
theorem c2_mint_report_carries_recipient_witness :
    (∀ rep, (onHTTPTrigger cfgA envOk (Input.valid pCC)).2.mintReport = some rep →
      rep.beneficiary =
        (if crossChainEnabled pCC then cfgA.sepolia.ccipConsumerAddress
         else pCC.beneficiary.account)) ∧
    (∀ t, (onHTTPTrigger cfgA envOk (Input.valid pCC)).2.transferReport = some t →
      ∃ cc, pCC.crossChain = some cc ∧ t.beneficiary = cc.beneficiary) :=
  c2_mint_report_carries_recipient cfgA envOk pCC 5 (by decide) (by decide)

end Bskt
